import Mathlib

/-!
# Carapace dashboard — Action Event Store & Analytics Engine

A shallow embedding of the server core of the carapace dashboard
(`src/unnamed/part_000`: the express API handlers; `src/unnamed/part_004`:
the `LogStore` class), together with theorems settling the specification
claims about the Query Engine, Session Aggregator, Review Trend Analyzer
and retention cleanup.

Modelling conventions:
* SQLite rows of the `actions` table become the structure `ActionRow`;
  `key_was_valid` is stored as the integer `0`/`1` and only ever written by
  `LogStore.logAction` from a boolean, so it is modelled as `Bool`.
* SQL `TEXT` comparisons (`timestamp >= ?`, `timestamp < ?`, `ORDER BY
  timestamp`) use SQLite's BINARY collation, i.e. byte-wise ordering; on the
  UTF-8 strings involved this is the codepoint-lexicographic order, modelled
  by the `LinearOrder` on `String`.
* `ORDER BY timestamp DESC` guarantees only that the result is the
  matching rows, each exactly once, in some order with non-increasing
  timestamps; SQL specifies no tie order and SQLite's choice among rows
  with equal timestamps is query-plan-dependent.  `ordersByTsDesc`
  captures exactly this guarantee.  To keep the handlers executable the
  embedding's `sortRows` fixes one admissible such ordering (a stable
  sort); no theorem relies on which admissible ordering it picks.
* JavaScript `parseInt` is modelled by `jsParseInt`, with `none` standing
  for `NaN`.  Binding `NaN` as an SQLite parameter stores `NULL`, and an
  SQL comparison with `NULL` is never true; `Option Int` with `none` for
  the `NULL` bind models this for the `tier` filter.
* SQL `LIKE` (always case-insensitive on ASCII in SQLite) is modelled by
  `likeMatch`, including its `%` and `_` wildcards.
* JavaScript numbers that hold scores/amounts are modelled by `Rat`;
  `Date` values compared with `>=`/`<` are modelled by their epoch value
  as `Int`.
-/

namespace Carapace

/-- One row of the `actions` table (schema in `src/unnamed/part_004`,
`initialize`). -/
structure ActionRow where
  id : Nat
  timestamp : String
  session_id : String
  action_type : String
  target : String
  amount : Rat
  description : String
  verdict : String
  reason : String
  key_was_valid : Bool
  tier : Int
  created_at : String
  deriving DecidableEq, Repr

/-- Byte-order comparison on strings decided through the underlying
character lists, so that concrete instances evaluate inside the kernel. -/
instance (priority := 2000) strDecLt (s t : String) : Decidable (s < t) :=
  decidable_of_iff (s.toList < t.toList) String.lt_iff_toList_lt.symm

/-- Same, for `≤`. -/
instance (priority := 2000) strDecLe (s t : String) : Decidable (s ≤ t) :=
  decidable_of_iff (s.toList ≤ t.toList) String.le_iff_toList_le.symm

/-! ## JavaScript `parseInt` model -/

/-- ASCII whitespace skipped by `parseInt`. -/
def jsWs (c : Char) : Bool :=
  c = ' ' || c = '\t' || c = '\n' || c = '\r'

/-- Value of one digit in the given base, if it is one. -/
def digitVal (base : Nat) (c : Char) : Option Nat :=
  let v : Option Nat :=
    if '0' ≤ c ∧ c ≤ '9' then some (c.toNat - '0'.toNat)
    else if 'a' ≤ c ∧ c ≤ 'f' then some (c.toNat - 'a'.toNat + 10)
    else if 'A' ≤ c ∧ c ≤ 'F' then some (c.toNat - 'A'.toNat + 10)
    else none
  match v with
  | some d => if d < base then some d else none
  | none => none

/-- Longest digit prefix, accumulating a value; `none` when no digit was
consumed (`parseInt` returns `NaN` then). -/
def parseDigits (base : Nat) : List Char → Option Nat → Option Nat
  | [], acc => acc
  | c :: cs, acc =>
    match digitVal base c with
    | some d => parseDigits base cs (some ((acc.getD 0) * base + d))
    | none => acc

/-- Model of JavaScript `parseInt(s)` (radix auto-detection included):
skip whitespace, optional sign, optional `0x`/`0X` hex prefix, then the
longest digit prefix.  `none` models `NaN`. -/
def jsParseInt (s : String) : Option Int :=
  let cs := s.data.dropWhile jsWs
  let (sign, cs₁) : Int × List Char :=
    match cs with
    | '+' :: t => (1, t)
    | '-' :: t => (-1, t)
    | t => (1, t)
  let (base, cs₂) : Nat × List Char :=
    match cs₁ with
    | '0' :: 'x' :: t => (16, t)
    | '0' :: 'X' :: t => (16, t)
    | t => (10, t)
  (parseDigits base cs₂ none).map (fun n => sign * (n : Int))

/-- JavaScript `x || d` on a parsed number: `NaN` and `0` are falsy. -/
def orDefault (v : Option Int) (d : Int) : Int :=
  match v with
  | none => d
  | some 0 => d
  | some n => n

/-! ## SQL `LIKE` model -/

/-- SQLite's LIKE case folding: ASCII letters only (`Char.toLower` in Lean
is exactly the ASCII fold). -/
def lc (c : Char) : Char := c.toLower

/-- `likeStar m ts` tries the continuation `m` on `ts` and on every
suffix of `ts` — how `%` consumes text. -/
def likeStar (m : List Char → Bool) : List Char → Bool
  | [] => m []
  | t :: ts => m (t :: ts) || likeStar m ts

/-- SQLite `LIKE` pattern matching: `%` matches any sequence, `_` any one
character, other characters match up to ASCII case. -/
def likeMatch : List Char → List Char → Bool
  | [], [] => true
  | [], _ :: _ => false
  | '%' :: ps, ts => likeStar (likeMatch ps) ts
  | '_' :: ps, _ :: ts => likeMatch ps ts
  | '_' :: _, [] => false
  | p :: ps, t :: ts => (lc p = lc t) && likeMatch ps ts
  | _ :: _, [] => false

/-- `col LIKE '%' || s || '%'` — the search condition built at
`src/unnamed/part_000` line 80 for each of the three searched columns. -/
def likeContains (s t : String) : Bool :=
  likeMatch ('%' :: (s.data ++ ['%'])) t.data

/-! ## Query Engine (`GET /api/logs`, `src/unnamed/part_000` lines 53–108) -/

/-- Raw query string parameters of `GET /api/logs`; `none` is an absent
parameter (`req.query.x === undefined`). -/
structure LogsQuery where
  limit : Option String := none
  offset : Option String := none
  verdict : Option String := none
  tier : Option String := none
  search : Option String := none
  since : Option String := none
  deriving Repr

/-- The values the handler computes on lines 60–65 before building the
`WHERE` clause.  `tier : Option (Option Int)`: outer `none` when the
parameter is absent or empty (falsy), inner `none` when `parseInt` gave
`NaN` (bound as SQL `NULL`). -/
structure ParsedQuery where
  limit : Int
  offset : Int
  verdict : Option String
  tier : Option (Option Int)
  search : Option String
  since : Option String

/-- Lines 60–65: `parseInt(...) || 50`, `parseInt(...) || 0`,
`req.query.tier ? parseInt(...) : undefined`. -/
def parseLogsQuery (q : LogsQuery) : ParsedQuery where
  limit := orDefault (q.limit.bind jsParseInt) 50
  offset := orDefault (q.offset.bind jsParseInt) 0
  verdict := q.verdict
  tier := match q.tier with
    | none => none
    | some s => if s = "" then none else some (jsParseInt s)
  search := q.search
  since := q.since

/-- Lines 70–73 (`if (verdict && verdict !== 'all')`): a JavaScript string
is falsy exactly when empty, hence the `≠ ""` guard. -/
def condVerdict (v : Option String) : List (ActionRow → Bool) :=
  match v with
  | some v => if v ≠ "" ∧ v ≠ "all" then [fun r => r.verdict = v] else []
  | none => []

/-- Lines 74–77 (`if (tier !== undefined)`); a `NaN` bind becomes
`tier = NULL`, which no row satisfies. -/
def condTier (t : Option (Option Int)) : List (ActionRow → Bool) :=
  match t with
  | some (some t) => [fun r => r.tier = t]
  | some none => [fun _ => false]
  | none => []

/-- Lines 78–84 (`if (search)`): the three-column LIKE disjunction. -/
def condSearch (s : Option String) : List (ActionRow → Bool) :=
  match s with
  | some s =>
    if s ≠ "" then
      [fun r => likeContains s r.action_type || likeContains s r.target ||
        likeContains s r.description]
    else []
  | none => []

/-- Lines 85–88 (`if (since)`): `timestamp >= ?`. -/
def condSince (s : Option String) : List (ActionRow → Bool) :=
  match s with
  | some s => if s ≠ "" then [fun r => decide (s ≤ r.timestamp)] else []
  | none => []

/-- The dynamic `conditions` array built on lines 67–88, as row
predicates. -/
def conditions (p : ParsedQuery) : List (ActionRow → Bool) :=
  condVerdict p.verdict ++ condTier p.tier ++ condSearch p.search ++
    condSince p.since

/-- `WHERE c₁ AND c₂ AND …` (lines 90–94): an empty list of conditions
constrains nothing. -/
def rowMatches (p : ParsedQuery) (r : ActionRow) : Bool :=
  (conditions p).all (fun c => c r)

/-- All that `ORDER BY timestamp DESC` constrains between two adjacent
result rows: the later one's `timestamp` is not above the earlier one's.
It says nothing about rows with equal timestamps. -/
def rowRel (a b : ActionRow) : Prop :=
  b.timestamp ≤ a.timestamp

instance : DecidableRel rowRel := fun a b => by
  unfold rowRel; infer_instance

instance : IsTotal ActionRow rowRel :=
  ⟨fun a b => le_total b.timestamp a.timestamp⟩

instance : IsTrans ActionRow rowRel :=
  ⟨fun _ _ _ hab hbc => le_trans hbc hab⟩

/-- One admissible output of `ORDER BY timestamp DESC`, fixed so the
handlers stay executable: a stable sort of the matching rows by
`timestamp` descending.  The store may return any admissible ordering;
no theorem depends on which one this picks among tied timestamps. -/
def sortRows (l : List ActionRow) : List ActionRow :=
  l.insertionSort rowRel

/-- Everything the `SELECT … ORDER BY timestamp DESC` of
`src/unnamed/part_000` line 98 guarantees about its result `sorted`
relative to the matching rows `matched`: a permutation (each matching row
exactly once) with non-increasing timestamps.  The order of rows with
equal timestamps is unspecified. -/
def ordersByTsDesc (matched sorted : List ActionRow) : Prop :=
  List.Perm sorted matched ∧
    sorted.Pairwise (fun a b => b.timestamp ≤ a.timestamp)

/-- The two prepared statements of lines 92–100: the `COUNT(*)` with the
same `WHERE`, and the page `SELECT … ORDER BY timestamp DESC LIMIT ?
OFFSET ?`.  SQLite semantics of the bound pagination values: a negative
`OFFSET` counts as `0` (`Int.toNat`), a negative `LIMIT` means
"no limit". -/
def runQuery (p : ParsedQuery) (table : List ActionRow) :
    List ActionRow × Nat :=
  let matched := table.filter (rowMatches p)
  let sorted := sortRows matched
  let off := p.offset.toNat
  let page := if p.limit < 0 then sorted.drop off
    else (sorted.drop off).take p.limit.toNat
  (page, matched.length)

/-- Response body of `GET /api/logs`. -/
structure LogsBody where
  actions : List ActionRow
  total : Nat
  deriving DecidableEq, Repr

/-- The `GET /api/logs` handler: result is `(HTTP status, body)`.
`dbExists` models `fs.existsSync(DB_PATH)`; when the backing file is
missing the handler answers `200` with the empty body (lines 55–57). -/
def apiLogs (dbExists : Bool) (table : List ActionRow) (q : LogsQuery) :
    Nat × LogsBody :=
  if dbExists then
    let p := parseLogsQuery q
    let (actions, total) := runQuery p table
    (200, ⟨actions, total⟩)
  else (200, ⟨[], 0⟩)

/-! ## Session Aggregator (`GET /api/logs/stats`, lines 110–191) -/

/-- The date part of an ISO-8601 timestamp: models both SQLite
`date(timestamp)` on such strings and JavaScript `split('T')[0]`. -/
def datePart (s : String) : String :=
  ⟨s.data.takeWhile (fun c => c ≠ 'T')⟩

/-- Response body of `GET /api/logs/stats`. -/
structure StatsBody where
  totalActions : Nat
  sessionActions : Nat
  verifiedCount : Nat
  unverifiedCount : Int
  blockedCount : Nat
  unverifiedTier1Count : Nat
  t1 : Nat
  t2 : Nat
  t3 : Nat
  dailySpend : Rat
  deriving DecidableEq, Repr

/-- The seven `COUNT`/`SUM` statements of lines 127–173 and the response
assembly of lines 177–186.  `today` models SQLite `date('now')`. -/
def computeStats (today : String) (table : List ActionRow) : StatsBody :=
  let totalActions := table.length
  let verifiedCount := (table.filter (fun r => r.key_was_valid)).length
  { totalActions := totalActions
    sessionActions := totalActions
    verifiedCount := verifiedCount
    unverifiedCount := (totalActions : Int) - (verifiedCount : Int)
    blockedCount := (table.filter (fun r => r.verdict = "block")).length
    unverifiedTier1Count :=
      (table.filter (fun r => !r.key_was_valid && r.tier = 1)).length
    t1 := (table.filter (fun r => r.tier = 1)).length
    t2 := (table.filter (fun r => r.tier = 2)).length
    t3 := (table.filter (fun r => r.tier = 3)).length
    dailySpend := ((table.filter (fun r => datePart r.timestamp = today)).map
      (fun r => r.amount)).sum }

/-- The `GET /api/logs/stats` handler (missing store file → zeroed body
with status 200, lines 112–123). -/
def apiLogsStats (dbExists : Bool) (today : String)
    (table : List ActionRow) : Nat × StatsBody :=
  if dbExists then (200, computeStats today table)
  else (200, ⟨0, 0, 0, 0, 0, 0, 0, 0, 0, 0⟩)

/-! ## Retention cleanup (`LogStore.cleanupOldLogs`,
`src/unnamed/part_004` lines 247–259) -/

/-- `DELETE FROM actions WHERE timestamp < ?` with the cutoff
`new Date(now − retentionDays days).toISOString()`, returning
`result.changes` (the number of deleted rows) together with the surviving
table.  `cutoff` abstracts the computed ISO string `now − N days`. -/
def cleanupOldLogs (cutoff : String) (table : List ActionRow) :
    List ActionRow × Nat :=
  (table.filter (fun r => ¬ r.timestamp < cutoff),
   (table.filter (fun r => r.timestamp < cutoff)).length)

/-! ## LogStore construction and append (`src/unnamed/part_004`
lines 59–143) -/

/-- The caller-supplied `LogEntry` interface (lines 30–40) — note it has
no `session_id` field, so a caller cannot supply one. -/
structure LogEntry where
  timestamp : String
  action_type : String
  target : String
  amount : Rat
  description : String
  verdict : String
  reason : String
  key_was_valid : Bool
  tier : Option Int
  deriving Repr

/-- In-memory model of one `LogStore` instance: `sessionStart` is the ISO
timestamp captured in the constructor (line 66), `rows` the `actions`
table it writes. -/
structure LogStore where
  sessionStart : String
  rows : List ActionRow

/-- The constructor (lines 64–67): records `new Date().toISOString()` as
`sessionStart`; the table starts as whatever is already on disk. -/
def LogStore.new (constructedAt : String) (existing : List ActionRow) :
    LogStore :=
  ⟨constructedAt, existing⟩

/-- `logAction` (lines 118–143): inserts one row, with `session_id :=
this.sessionStart` (line 131) and `tier := entry.tier ?? 0` (line 139);
`id` is the AUTOINCREMENT rowid, `created_at` the storage-assigned
`datetime('now')`. -/
def LogStore.logAction (st : LogStore) (e : LogEntry) (newId : Nat)
    (createdAt : String) : LogStore :=
  { st with rows := st.rows ++
      [{ id := newId
         timestamp := e.timestamp
         session_id := st.sessionStart
         action_type := e.action_type
         target := e.target
         amount := e.amount
         description := e.description
         verdict := e.verdict
         reason := e.reason
         key_was_valid := e.key_was_valid
         tier := e.tier.getD 0
         created_at := createdAt }] }

/-! ## Reviews and the Trend Analyzer (`GET /api/reviews`,
`GET /api/reviews/trends`, lines 195–344) -/

/-- One row of the `reviews` table, restricted to the columns the analytics
read.  `time` models the epoch value of `new Date(timestamp)` used in the
trend-window comparisons. -/
structure ReviewRow where
  id : Nat
  timestamp : String
  time : Int
  overall_score : Rat
  goal_alignment_score : Rat
  security_compliance_score : Rat
  deriving DecidableEq, Repr

/-- Response body of `GET /api/reviews` (the decoded `highlights` /
`insights` payloads are not modelled — no claim touches them). -/
structure ReviewsBody where
  reviews : List ReviewRow
  total : Nat
  deriving DecidableEq, Repr

/-- `ORDER BY timestamp DESC` for reviews: as for actions, only the
timestamp order is constrained; the model fixes a stable sort. -/
def revRelDesc (a b : ReviewRow) : Prop :=
  b.timestamp ≤ a.timestamp

instance : DecidableRel revRelDesc := fun a b => by
  unfold revRelDesc; infer_instance

/-- The `GET /api/reviews` handler (lines 195–229): missing store file →
empty body with status 200. -/
def apiReviews (dbExists : Bool) (table : List ReviewRow)
    (limit offset : Option String) : Nat × ReviewsBody :=
  if dbExists then
    let lim := orDefault (limit.bind jsParseInt) 20
    let off := orDefault (offset.bind jsParseInt) 0
    let sorted := table.insertionSort revRelDesc
    let page := if lim < 0 then sorted.drop off.toNat
      else (sorted.drop off.toNat).take lim.toNat
    (200, ⟨page, table.length⟩)
  else (200, ⟨[], 0⟩)

/-- `avg` of line 268: `arr.length > 0 ? sum/length : 0`. -/
def avgRat (l : List Rat) : Rat :=
  if l.length = 0 then 0 else l.sum / (l.length : Rat)

/-- `Math.round(x * 100) / 100` — `Math.round` is `⌊x + 1/2⌋`, which is
Mathlib's `round`. -/
def round2 (q : Rat) : Rat := ((round (q * 100) : Int) : Rat) / 100

/-- One element of `daily_scores` (lines 270–275). -/
structure DayScore where
  date : String
  overall : Rat
  alignment : Rat
  security : Rat
  deriving DecidableEq, Repr

/-- A `{ date, score }` pair, the shape of `best_day` / `worst_day`. -/
structure DayMark where
  date : String
  score : Rat
  deriving DecidableEq, Repr

/-- The keys of the `byDate` object in first-appearance order (JavaScript
objects preserve string-key insertion order; rows arrive in ascending
`timestamp` order). -/
def groupDates (rows : List ReviewRow) : List String :=
  rows.foldl
    (fun acc r =>
      if acc.contains (datePart r.timestamp) then acc
      else acc ++ [datePart r.timestamp]) []

/-- `daily_scores` (lines 256–275): one record per distinct date of the
selected rows, with the per-day means of the three scores rounded to two
decimals. -/
def dailyScores (rows : List ReviewRow) : List DayScore :=
  (groupDates rows).map (fun d =>
    let grp := rows.filter (fun r => datePart r.timestamp = d)
    { date := d
      overall := round2 (avgRat (grp.map (fun r => r.overall_score)))
      alignment := round2 (avgRat (grp.map (fun r => r.goal_alignment_score)))
      security := round2 (avgRat (grp.map (fun r => r.security_compliance_score))) })

/-- Reviews with `new Date(timestamp) >= sevenDaysAgo` (lines 295–297). -/
def recentScores (rows : List ReviewRow) (c7 : Int) : List Rat :=
  (rows.filter (fun r => c7 ≤ r.time)).map (fun r => r.overall_score)

/-- Reviews with `fourteenDaysAgo <= new Date(timestamp) < sevenDaysAgo`
(lines 298–300). -/
def previousScores (rows : List ReviewRow) (c7 c14 : Int) : List Rat :=
  (rows.filter (fun r => c14 ≤ r.time ∧ r.time < c7)).map
    (fun r => r.overall_score)

/-- The trend classification of lines 302–315.  `c7`, `c14` are the epoch
values of `sevenDaysAgo`, `fourteenDaysAgo`. -/
def trendDirection (rows : List ReviewRow) (c7 c14 : Int) : String :=
  let recent := recentScores rows c7
  let previous := previousScores rows c7 c14
  let diff := avgRat recent - avgRat previous
  if previous.length = 0 ∨ recent.length = 0 then "stable"
  else if diff > 5 then "improving"
  else if diff < -5 then "declining"
  else "stable"

/-- One step of the best-day accumulator of lines 321–328: replace only on
a strictly greater `overall`. -/
def bestStep (acc : Option DayMark) (e : DayScore) : Option DayMark :=
  match acc with
  | none => some ⟨e.date, e.overall⟩
  | some b => if b.score < e.overall then some ⟨e.date, e.overall⟩ else some b

/-- One step of the worst-day accumulator: replace only on a strictly
smaller `overall`. -/
def worstStep (acc : Option DayMark) (e : DayScore) : Option DayMark :=
  match acc with
  | none => some ⟨e.date, e.overall⟩
  | some w => if e.overall < w.score then some ⟨e.date, e.overall⟩ else some w

/-- `best_day` after the scan of lines 317–328. -/
def bestDay (ds : List DayScore) : Option DayMark := ds.foldl bestStep none

/-- `worst_day` after the scan of lines 317–328. -/
def worstDay (ds : List DayScore) : Option DayMark := ds.foldl worstStep none

/-- Global score averages over all selected rows (lines 277–286). -/
structure Averages where
  overall : Rat
  alignment : Rat
  security : Rat
  deriving DecidableEq, Repr

/-- Response body of `GET /api/reviews/trends`. -/
structure TrendsBody where
  daily_scores : List DayScore
  averages : Averages
  trend_direction : String
  best_day : Option DayMark
  worst_day : Option DayMark
  deriving DecidableEq, Repr

/-- Ascending `ORDER BY timestamp` for the trends query; again only the
timestamp order is constrained and the model fixes a stable sort. -/
def revRelAsc (a b : ReviewRow) : Prop :=
  a.timestamp ≤ b.timestamp

instance : DecidableRel revRelAsc := fun a b => by
  unfold revRelAsc; infer_instance

/-- The `GET /api/reviews/trends` handler (lines 231–344).  `cutoff` is
the ISO string of `now − days`, `c7`/`c14` the epoch values of the two
window boundaries.  Missing store file → the zeroed/null body with
status 200 (lines 233–241). -/
def apiReviewsTrends (dbExists : Bool) (cutoff : String) (c7 c14 : Int)
    (table : List ReviewRow) : Nat × TrendsBody :=
  if dbExists then
    let rows := (table.filter (fun r => cutoff ≤ r.timestamp)).insertionSort
      revRelAsc
    let ds := dailyScores rows
    (200,
     { daily_scores := ds
       averages :=
        { overall := round2 (avgRat (rows.map (fun r => r.overall_score)))
          alignment := round2 (avgRat (rows.map (fun r => r.goal_alignment_score)))
          security := round2 (avgRat (rows.map (fun r => r.security_compliance_score))) }
       trend_direction := trendDirection rows c7 c14
       best_day := bestDay ds
       worst_day := worstDay ds })
  else (200, ⟨[], ⟨0, 0, 0⟩, "stable", none, none⟩)

/-! ## Specification-side predicates

The spec describes the filter as four independent constraints combined
with AND; these four predicates transcribe that description, to be proved
equal to the dynamically assembled `conditions` list of the handler. -/

/-- Supplied `verdict` other than `"all"` (and non-empty): exact match;
otherwise no constraint. -/
def verdictOk (v : Option String) (r : ActionRow) : Bool :=
  match v with
  | none => true
  | some v => if v = "" ∨ v = "all" then true else r.verdict = v

/-- Supplied numeric `tier`: exact match; supplied non-numeric `tier`:
the `NULL` comparison that no row satisfies; absent: no constraint. -/
def tierOk (t : Option (Option Int)) (r : ActionRow) : Bool :=
  match t with
  | none => true
  | some none => false
  | some (some n) => r.tier = n

/-- Supplied non-empty `search`: the three-column LIKE disjunction;
otherwise no constraint. -/
def searchOk (s : Option String) (r : ActionRow) : Bool :=
  match s with
  | none => true
  | some s =>
    if s = "" then true
    else likeContains s r.action_type || likeContains s r.target ||
      likeContains s r.description

/-- Supplied non-empty `since`: inclusive lexicographic lower bound on
`timestamp`; otherwise no constraint. -/
def sinceOk (s : Option String) (r : ActionRow) : Bool :=
  match s with
  | none => true
  | some s => if s = "" then true else s ≤ r.timestamp

/-- The arithmetic mean, as the spec states it (`sum / length`). -/
def meanRat (l : List Rat) : Rat := l.sum / (l.length : Rat)

/-- Case-folded character list of a string — the spec's notion of
case-insensitive content. -/
def lcChars (s : String) : List Char := s.data.map lc

/-- A search string with no LIKE wildcard characters, i.e. one the spec's
"substring match" reading can apply to verbatim. -/
def noWild (s : List Char) : Prop := ∀ c ∈ s, c ≠ '%' ∧ c ≠ '_'

instance (s : List Char) : Decidable (noWild s) := by
  unfold noWild; infer_instance

/-! ## Concrete fixtures used in worked-example conjuncts and witnesses -/

/-- Fixture builder for action rows. -/
def mkEvent (i : Nat) (ts vd : String) (kv : Bool) (t : Int) : ActionRow where
  id := i
  timestamp := ts
  session_id := "s"
  action_type := "send_email"
  target := "alice@example.com"
  amount := 0
  description := "routine notification"
  verdict := vd
  reason := ""
  key_was_valid := kv
  tier := t
  created_at := "2024-01-05 00:00:00"

/-- Older of the two pagination fixture rows. -/
def rowJan1 : ActionRow := mkEvent 1 "2024-01-01T00:00:00.000Z" "pass" true 1

/-- Newer of the two pagination fixture rows. -/
def rowJan2 : ActionRow := mkEvent 2 "2024-01-02T00:00:00.000Z" "block" false 1

/-- First of two rows sharing one timestamp, for the tie-order
counterexample. -/
def tieRowA : ActionRow := mkEvent 1 "2024-03-01T00:00:00.000Z" "pass" true 1

/-- Second of two rows sharing one timestamp. -/
def tieRowB : ActionRow := mkEvent 2 "2024-03-01T00:00:00.000Z" "block" false 2

/-- The Session Aggregator worked example: tiers `[1,1,2,3,1]`,
`key_was_valid = [false,true,true,true,false]`. -/
def exampleStatsTable : List ActionRow :=
  [mkEvent 1 "2024-01-01T01:00:00.000Z" "pass" false 1,
   mkEvent 2 "2024-01-01T02:00:00.000Z" "pass" true 1,
   mkEvent 3 "2024-01-01T03:00:00.000Z" "pass" true 2,
   mkEvent 4 "2024-01-01T04:00:00.000Z" "pass" true 3,
   mkEvent 5 "2024-01-01T05:00:00.000Z" "pass" false 1]

/-- Review fixture: `time` is the abstract epoch value. -/
def mkReview (i : Nat) (ts : String) (time : Int) (score : Rat) : ReviewRow where
  id := i
  timestamp := ts
  time := time
  overall_score := score
  goal_alignment_score := score
  security_compliance_score := score

/-- A row whose searched columns contain none of the probe strings. -/
def rowPlain : ActionRow :=
  { mkEvent 7 "2024-01-03T00:00:00.000Z" "pass" true 2 with
    action_type := "q", target := "q", description := "q" }

/-- A row whose `action_type` contains `a…b` but not the literal text
`a%b`. -/
def rowAxb : ActionRow :=
  { mkEvent 8 "2024-01-04T00:00:00.000Z" "pass" true 2 with
    action_type := "axb", target := "q", description := "q" }

/-- The best/worst-day tie fixture: two days both scoring 90. -/
def tieDays : List DayScore :=
  [⟨"2024-01-01", 90, 80, 70⟩, ⟨"2024-01-02", 90, 60, 50⟩]

/-- Trend example: epoch `time` values 1–7 are the week before last
(`overall_score = 60`), 8–14 the last week (`overall_score = 70`); with
`c7 = 8` and `c14 = 1` the recent mean is 70 and the previous mean 60. -/
def trendExampleUp : List ReviewRow :=
  [mkReview 1 "d08" 8 70, mkReview 2 "d09" 9 70, mkReview 3 "d10" 10 70,
   mkReview 4 "d11" 11 70, mkReview 5 "d12" 12 70, mkReview 6 "d13" 13 70,
   mkReview 7 "d14" 14 70,
   mkReview 8 "d01" 1 60, mkReview 9 "d02" 2 60, mkReview 10 "d03" 3 60,
   mkReview 11 "d04" 4 60, mkReview 12 "d05" 5 60, mkReview 13 "d06" 6 60,
   mkReview 14 "d07" 7 60]

/-- Trend example with a difference of 3 (recent mean 63, previous 60). -/
def trendExampleFlat : List ReviewRow :=
  [mkReview 1 "d08" 8 63, mkReview 2 "d09" 9 63,
   mkReview 3 "d01" 1 60, mkReview 4 "d02" 2 60]

/-! ## Theorems -/

/-- C5: for every retention cutoff, `cleanupOldLogs` keeps exactly the
rows whose `timestamp` is not strictly below the cutoff (so rows exactly
at the boundary are retained), keeps them unaltered and in order (the
survivors form a sublist of the original table), and reports as deleted
count exactly the number of rows strictly older than the cutoff, which
together with the survivors accounts for the whole table. -/
theorem cleanupOldLogs_deletes_exactly_older (cutoff : String)
    (table : List ActionRow) :
    (∀ r, r ∈ (cleanupOldLogs cutoff table).1 ↔
      (r ∈ table ∧ cutoff ≤ r.timestamp)) ∧
    (cleanupOldLogs cutoff table).1.Sublist table ∧
    (cleanupOldLogs cutoff table).2 =
      (table.filter (fun r => r.timestamp < cutoff)).length ∧
    (cleanupOldLogs cutoff table).2 +
      (cleanupOldLogs cutoff table).1.length = table.length := by
  refine ⟨?_, ?_, rfl, ?_⟩
  · intro r
    simp [cleanupOldLogs, List.mem_filter, not_lt]
  · exact List.filter_sublist table
  · simp only [cleanupOldLogs, ← List.countP_eq_length_filter]
    have h := List.length_eq_countP_add_countP
      (p := fun r : ActionRow => decide (r.timestamp < cutoff)) table
    simpa using h.symm

/-- C7: when the backing store file does not exist, each of the four read
endpoints (`GET /api/logs`, `GET /api/logs/stats`, `GET /api/reviews`,
`GET /api/reviews/trends`) answers with HTTP status 200 and its
documented empty-state body (empty list with total 0, zeroed stats,
zeroed/null trend summary) — never a failure status. -/
theorem read_endpoints_degrade_when_store_missing
    (q : LogsQuery) (table : List ActionRow) (today : String)
    (rtable : List ReviewRow) (lim off : Option String)
    (cutoff : String) (c7 c14 : Int) :
    apiLogs false table q = (200, ⟨[], 0⟩) ∧
    apiLogsStats false today table = (200, ⟨0, 0, 0, 0, 0, 0, 0, 0, 0, 0⟩) ∧
    apiReviews false rtable lim off = (200, ⟨[], 0⟩) ∧
    apiReviewsTrends false cutoff c7 c14 rtable =
      (200, ⟨[], ⟨0, 0, 0⟩, "stable", none, none⟩) := by
  refine ⟨rfl, rfl, rfl, rfl⟩

/-- Helper for C10: folding `logAction` over any entry sequence leaves
`sessionStart` unchanged and only appends rows stamped with it. -/
theorem logAction_foldl_rows (entries : List (LogEntry × Nat × String)) :
    ∀ st : LogStore, (∀ r ∈ st.rows, r.session_id = st.sessionStart) →
      (entries.foldl (fun s ec => s.logAction ec.1 ec.2.1 ec.2.2)
          st).sessionStart = st.sessionStart ∧
      ∀ r ∈ (entries.foldl (fun s ec => s.logAction ec.1 ec.2.1 ec.2.2)
          st).rows, r.session_id = st.sessionStart := by
  induction entries with
  | nil => exact fun st h => ⟨rfl, h⟩
  | cons ec rest ih =>
    intro st h
    have hinv : ∀ r ∈ (st.logAction ec.1 ec.2.1 ec.2.2).rows,
        r.session_id = (st.logAction ec.1 ec.2.1 ec.2.2).sessionStart := by
      intro r hr
      simp only [LogStore.logAction, List.mem_append, List.mem_singleton] at hr
      rcases hr with hr | hr
      · exact h r hr
      · subst hr; rfl
    obtain ⟨hsess, hall⟩ := ih (st.logAction ec.1 ec.2.1 ec.2.2) hinv
    constructor
    · simpa [LogStore.logAction] using hsess
    · intro r hr
      have := hall r (by simpa using hr)
      simpa [LogStore.logAction] using this

/-- C10: a `LogStore` constructed at `constructedAt` stamps every row it
appends — whatever the entries' own `timestamp` fields are — with
`session_id = constructedAt`, the ISO timestamp captured at construction;
the `LogEntry` interface has no `session_id` field, so all rows written
through one instance share this one value. -/
theorem logStore_single_session (constructedAt : String)
    (entries : List (LogEntry × Nat × String)) :
    ((entries.foldl (fun s ec => s.logAction ec.1 ec.2.1 ec.2.2)
        (LogStore.new constructedAt [])).rows.all
      (fun r => r.session_id = constructedAt)) = true ∧
    (entries.foldl (fun s ec => s.logAction ec.1 ec.2.1 ec.2.2)
        (LogStore.new constructedAt [])).sessionStart = constructedAt := by
  obtain ⟨hsess, hall⟩ :=
    logAction_foldl_rows entries (LogStore.new constructedAt []) (by simp [LogStore.new])
  refine ⟨?_, hsess⟩
  rw [List.all_eq_true]
  intro r hr
  simpa using hall r hr

/-- The handler's `avg` (0 on an empty array) agrees with the arithmetic
mean everywhere, since `Rat` division by zero is zero. -/
theorem avgRat_eq_meanRat (l : List Rat) : avgRat l = meanRat l := by
  cases l with
  | nil => simp [avgRat, meanRat]
  | cons a t => simp [avgRat, meanRat]

/-- C3: the Session Aggregator computes `totalActions` as the row count,
`verifiedCount` as the number of rows with `key_was_valid = true`,
`unverifiedCount` as their difference, `blockedCount` as the rows with
verdict `block`, `unverifiedTier1Count` as the rows with
`key_was_valid = false` and `tier = 1`, and a tier breakdown counting
tiers 1, 2 and 3 only; on the worked example (tiers `[1,1,2,3,1]`,
`key_was_valid = [false,true,true,true,false]`) this yields
`unverifiedTier1Count = 2`, `tierBreakdown = {t1:3, t2:1, t3:1}` and
`verifiedCount = 3`. -/
theorem stats_fields_are_counts (today : String) (table : List ActionRow) :
    ((computeStats today table).totalActions = table.length ∧
     (computeStats today table).verifiedCount =
       table.countP (fun r => r.key_was_valid = true) ∧
     (computeStats today table).unverifiedCount =
       ((computeStats today table).totalActions : Int) -
         ((computeStats today table).verifiedCount : Int) ∧
     (computeStats today table).blockedCount =
       table.countP (fun r => r.verdict = "block") ∧
     (computeStats today table).unverifiedTier1Count =
       table.countP (fun r => r.key_was_valid = false ∧ r.tier = 1) ∧
     (computeStats today table).t1 = table.countP (fun r => r.tier = 1) ∧
     (computeStats today table).t2 = table.countP (fun r => r.tier = 2) ∧
     (computeStats today table).t3 = table.countP (fun r => r.tier = 3)) ∧
    ((computeStats today exampleStatsTable).unverifiedTier1Count = 2 ∧
     (computeStats today exampleStatsTable).t1 = 3 ∧
     (computeStats today exampleStatsTable).t2 = 1 ∧
     (computeStats today exampleStatsTable).t3 = 1 ∧
     (computeStats today exampleStatsTable).verifiedCount = 3) := by
  constructor
  · refine ⟨rfl, ?_, rfl, ?_, ?_, ?_, ?_, ?_⟩ <;>
      simp [computeStats, List.countP_eq_length_filter]
  · refine ⟨?_, ?_, ?_, ?_, ?_⟩ <;> rfl

/-- C4: the trend classification compares the mean `overall_score` of the
last-7-days reviews with the mean over the 7 days before: `stable` when
either window is empty, `improving` when the difference exceeds 5,
`declining` when it is below −5, `stable` otherwise; the worked examples
(means 70 vs 60, and 63 vs 60) give `improving` and `stable`. -/
theorem trend_direction_spec (rows : List ReviewRow) (c7 c14 : Int) :
    (trendDirection rows c7 c14 =
      if recentScores rows c7 = [] ∨ previousScores rows c7 c14 = []
      then "stable"
      else if meanRat (recentScores rows c7) -
          meanRat (previousScores rows c7 c14) > 5 then "improving"
      else if meanRat (recentScores rows c7) -
          meanRat (previousScores rows c7 c14) < -5 then "declining"
      else "stable") ∧
    trendDirection trendExampleUp 8 1 = "improving" ∧
    trendDirection trendExampleFlat 8 1 = "stable" := by
  refine ⟨?_, ?ex1, ?ex2⟩
  case ex1 =>
    simp [trendDirection, recentScores, previousScores, trendExampleUp,
      mkReview, avgRat]
    norm_num
  case ex2 =>
    simp [trendDirection, recentScores, previousScores, trendExampleFlat,
      mkReview, avgRat]
    norm_num
  unfold trendDirection
  simp only [avgRat_eq_meanRat]
  have hcond : ((previousScores rows c7 c14).length = 0 ∨
      (recentScores rows c7).length = 0) ↔
      (recentScores rows c7 = [] ∨ previousScores rows c7 c14 = []) := by
    simp [List.length_eq_zero, or_comm]
  rw [if_congr hcond rfl rfl]

/-- The verdict segment of the WHERE clause is the spec's verdict
constraint. -/
theorem condVerdict_all (v : Option String) (r : ActionRow) :
    (condVerdict v).all (fun c => c r) = verdictOk v r := by
  rcases v with _ | v
  · rfl
  · simp only [condVerdict, verdictOk]
    split_ifs with h h' <;> simp_all

/-- The tier segment of the WHERE clause is the spec's tier constraint. -/
theorem condTier_all (t : Option (Option Int)) (r : ActionRow) :
    (condTier t).all (fun c => c r) = tierOk t r := by
  rcases t with _ | (_ | t) <;> simp [condTier, tierOk]

/-- The search segment of the WHERE clause is the spec's search
constraint. -/
theorem condSearch_all (s : Option String) (r : ActionRow) :
    (condSearch s).all (fun c => c r) = searchOk s r := by
  rcases s with _ | s
  · rfl
  · simp only [condSearch, searchOk]
    split_ifs <;> simp_all

/-- The since segment of the WHERE clause is the spec's since
constraint. -/
theorem condSince_all (s : Option String) (r : ActionRow) :
    (condSince s).all (fun c => c r) = sinceOk s r := by
  rcases s with _ | s
  · rfl
  · simp only [condSince, sinceOk]
    split_ifs <;> simp_all

/-- C2: a row passes the assembled WHERE clause iff it satisfies the
conjunction of the four individually supplied constraints (omitted
filters, and `verdict = "all"`, imposing none); the reported `total` is
the number of matching rows of the whole table, and it does not depend on
`limit` or `offset`. -/
theorem filters_conjunctive (q : LogsQuery) (table : List ActionRow) :
    (∀ r, rowMatches (parseLogsQuery q) r =
      (verdictOk (parseLogsQuery q).verdict r &&
       tierOk (parseLogsQuery q).tier r &&
       searchOk (parseLogsQuery q).search r &&
       sinceOk (parseLogsQuery q).since r)) ∧
    (runQuery (parseLogsQuery q) table).2 =
      (table.filter (rowMatches (parseLogsQuery q))).length ∧
    (∀ l o : Int,
      (runQuery { parseLogsQuery q with limit := l, offset := o } table).2 =
        (runQuery (parseLogsQuery q) table).2) ∧
    (∀ r, rowMatches { parseLogsQuery q with verdict := some "all" } r =
      rowMatches { parseLogsQuery q with verdict := none } r) := by
  refine ⟨?_, rfl, fun l o => rfl, ?_⟩
  · intro r
    simp only [rowMatches, conditions, List.all_append, condVerdict_all,
      condTier_all, condSearch_all, condSince_all, Bool.and_assoc]
  · intro r
    simp only [rowMatches, conditions, List.all_append, condVerdict_all,
      condTier_all, condSearch_all, condSince_all]
    rfl

/-- Helper for C1: among orderings with non-increasing timestamps, a
permutation class has exactly one member once all timestamps are
pairwise distinct. -/
theorem tsDesc_sorted_unique :
    ∀ s₁ s₂ : List ActionRow, List.Perm s₁ s₂ →
      s₁.Pairwise (fun a b => b.timestamp ≤ a.timestamp) →
      s₂.Pairwise (fun a b => b.timestamp ≤ a.timestamp) →
      s₁.Pairwise (fun a b => a.timestamp ≠ b.timestamp) →
      s₁ = s₂ := by
  intro s₁
  induction s₁ with
  | nil =>
    intro s₂ hp _ _ _
    exact (hp.symm.eq_nil).symm
  | cons a t ih =>
    intro s₂ hp hs₁ hs₂ hd
    cases s₂ with
    | nil => exact absurd hp.eq_nil (by simp)
    | cons b t₂ =>
      have hab : a = b := by
        by_contra hne
        have hamem : a ∈ b :: t₂ := hp.mem_iff.mp (List.mem_cons_self a t)
        have hbmem : b ∈ a :: t := hp.mem_iff.mpr (List.mem_cons_self b t₂)
        have ha2 : a ∈ t₂ := by
          rcases List.mem_cons.mp hamem with h | h
          · exact absurd h hne
          · exact h
        have hb1 : b ∈ t := by
          rcases List.mem_cons.mp hbmem with h | h
          · exact absurd h.symm hne
          · exact h
        have h1 : b.timestamp ≤ a.timestamp :=
          (List.pairwise_cons.mp hs₁).1 b hb1
        have h2 : a.timestamp ≤ b.timestamp :=
          (List.pairwise_cons.mp hs₂).1 a ha2
        exact (List.pairwise_cons.mp hd).1 b hb1 (le_antisymm h2 h1)
      subst hab
      have hpt : List.Perm t t₂ := (List.perm_cons a).mp hp
      rw [ih t₂ hpt (List.pairwise_cons.mp hs₁).2
        (List.pairwise_cons.mp hs₂).2 (List.pairwise_cons.mp hd).2]

/-- C1 counterexample: on a table of two matching rows with equal
timestamps, the constraint that `ORDER BY timestamp DESC` (which names no
secondary sort key) places on the result admits two distinct orderings —
including one whose ties are not `id`-descending — so the claimed
id-descending tie-break and the unique "full filtered ordering" are not
properties of the program. -/
theorem order_by_tie_counterexample :
    tieRowA.timestamp = tieRowB.timestamp ∧
    ordersByTsDesc [tieRowA, tieRowB] [tieRowB, tieRowA] ∧
    ordersByTsDesc [tieRowA, tieRowB] [tieRowA, tieRowB] ∧
    ¬ List.Pairwise (fun a b => b.timestamp ≤ a.timestamp ∧
        (b.timestamp = a.timestamp → b.id ≤ a.id)) [tieRowA, tieRowB] ∧
    ([tieRowA, tieRowB] : List ActionRow) ≠ [tieRowB, tieRowA] := by
  refine ⟨rfl, ⟨List.Perm.swap tieRowA tieRowB [], ?_⟩,
    ⟨List.Perm.refl _, ?_⟩, ?_, ?_⟩
  · simp [List.pairwise_cons]
    decide
  · simp [List.pairwise_cons]
    decide
  · simp [List.pairwise_cons]
    decide
  · decide

/-- C1 (amended): for every query, `total` is the number of matching rows
and the returned page is the `[offset, offset+limit)` slice of an
ordering of the matching rows admissible for `ORDER BY timestamp DESC`:
the model's ordering is admissible, every admissible ordering is a
permutation of the matching rows with non-increasing timestamps, and when
the matching timestamps are pairwise distinct the admissible ordering —
hence every slice — is unique; in particular over the two distinct-
timestamp fixture rows, `offset=0,limit=1` returns the newer row and
`offset=1,limit=1` the older one, each exactly once, newest first. -/
theorem query_page_ordered_slice_amended
    (verdict : Option String) (tier : Option (Option Int))
    (search since : Option String) (lim off : Nat)
    (table : List ActionRow) :
    ((runQuery ⟨(lim : Int), (off : Int), verdict, tier, search, since⟩
        table).1 =
      ((sortRows (table.filter
          (rowMatches ⟨(lim : Int), (off : Int), verdict, tier, search,
            since⟩))).drop off).take lim ∧
     (runQuery ⟨(lim : Int), (off : Int), verdict, tier, search, since⟩
        table).2 =
      (table.filter (rowMatches ⟨(lim : Int), (off : Int), verdict, tier,
        search, since⟩)).length ∧
     ordersByTsDesc
       (table.filter (rowMatches ⟨(lim : Int), (off : Int), verdict, tier,
         search, since⟩))
       (sortRows (table.filter
         (rowMatches ⟨(lim : Int), (off : Int), verdict, tier, search,
           since⟩))) ∧
     (∀ s₁ s₂ : List ActionRow,
       (table.filter (rowMatches ⟨(lim : Int), (off : Int), verdict, tier,
         search, since⟩)).Pairwise
           (fun a b => a.timestamp ≠ b.timestamp) →
       ordersByTsDesc (table.filter (rowMatches ⟨(lim : Int), (off : Int),
         verdict, tier, search, since⟩)) s₁ →
       ordersByTsDesc (table.filter (rowMatches ⟨(lim : Int), (off : Int),
         verdict, tier, search, since⟩)) s₂ →
       s₁ = s₂)) ∧
    ((runQuery ⟨1, 0, none, none, none, none⟩ [rowJan1, rowJan2]).1 =
        [rowJan2] ∧
     (runQuery ⟨1, 1, none, none, none, none⟩ [rowJan1, rowJan2]).1 =
        [rowJan1]) := by
  refine ⟨⟨?_, rfl, ⟨?_, ?_⟩, ?_⟩, ?_, ?_⟩
  · rw [runQuery]
    rw [if_neg (by exact Int.not_lt.mpr (Int.natCast_nonneg lim))]
    simp
  · exact List.perm_insertionSort rowRel _
  · exact List.sorted_insertionSort rowRel _
  · intro s₁ s₂ hd h1 h2
    exact tsDesc_sorted_unique s₁ s₂ (h1.1.trans h2.1.symm) h1.2 h2.2
      ((h1.1.pairwise_iff (fun h => Ne.symm h)).mpr hd)
  · rfl
  · rfl

/-- Witness for C1 (amended): at the distinct-timestamp two-row fixture,
the uniqueness part pins every admissible ordering — here the explicit
newest-first list — down to the model's `sortRows`. -/
theorem query_page_ordered_slice_amended_witness :
    ([rowJan1, rowJan2].filter (rowMatches ⟨(1 : Int), (0 : Int), none,
        none, none, none⟩)).Pairwise
      (fun a b => a.timestamp ≠ b.timestamp) ∧
    ordersByTsDesc
      ([rowJan1, rowJan2].filter (rowMatches ⟨(1 : Int), (0 : Int), none,
        none, none, none⟩)) [rowJan2, rowJan1] ∧
    ([rowJan2, rowJan1] : List ActionRow) =
      sortRows ([rowJan1, rowJan2].filter (rowMatches ⟨(1 : Int),
        (0 : Int), none, none, none, none⟩)) := by
  have hd : ([rowJan1, rowJan2].filter (rowMatches ⟨(1 : Int), (0 : Int),
      none, none, none, none⟩)).Pairwise
        (fun a b => a.timestamp ≠ b.timestamp) := by
    simp [List.pairwise_cons]
    decide
  have hfe : [rowJan1, rowJan2].filter (rowMatches ⟨(1 : Int), (0 : Int),
      none, none, none, none⟩) = [rowJan1, rowJan2] := rfl
  have hadm : ordersByTsDesc
      ([rowJan1, rowJan2].filter (rowMatches ⟨(1 : Int), (0 : Int), none,
        none, none, none⟩)) [rowJan2, rowJan1] := by
    constructor
    · rw [hfe]
      exact (List.Perm.swap rowJan2 rowJan1 []).symm
    · simp [List.pairwise_cons]
      decide
  obtain ⟨⟨_, _, hmodel, huniq⟩, _, _⟩ :=
    query_page_ordered_slice_amended none none none none 1 0
      [rowJan1, rowJan2]
  exact ⟨hd, hadm, huniq [rowJan2, rowJan1] _ hd hadm hmodel⟩

/-- Helper for C6: folding the best-day accumulator over records whose
dates are strictly ascending and strictly after the accumulator's date
yields the running maximum, never replaced on ties. -/
theorem bestStep_foldl (l : List DayScore) :
    ∀ b : DayMark, (∀ e ∈ l, b.date < e.date) →
      l.Pairwise (fun a c => a.date < c.date) →
      ∃ b', l.foldl bestStep (some b) = some b' ∧
        (b' = b ∨ ∃ e ∈ l, b'.date = e.date ∧ b'.score = e.overall) ∧
        b.score ≤ b'.score ∧
        (∀ e ∈ l, e.overall ≤ b'.score) ∧
        (b'.score = b.score → b' = b) ∧
        (∀ e ∈ l, e.overall = b'.score → b'.date ≤ e.date) := by
  induction l with
  | nil =>
    intro b _ _
    exact ⟨b, rfl, Or.inl rfl, le_refl _, by simp, fun _ => rfl, by simp⟩
  | cons e t ih =>
    intro b hb hpw
    rcases List.pairwise_cons.mp hpw with ⟨he, hpt⟩
    by_cases h : b.score < e.overall
    · obtain ⟨b', hfold, hatt, hmono, hall, hkeep, hties⟩ :=
        ih ⟨e.date, e.overall⟩ (fun e' he' => he e' he') hpt
      refine ⟨b', by simpa [bestStep, h] using hfold, ?_, ?_, ?_, ?_, ?_⟩
      · rcases hatt with hatt | ⟨e', he', h1, h2⟩
        · exact Or.inr ⟨e, List.mem_cons_self e t, by rw [hatt], by rw [hatt]⟩
        · exact Or.inr ⟨e', List.mem_cons_of_mem e he', h1, h2⟩
      · exact le_of_lt (lt_of_lt_of_le h hmono)
      · intro e' he'
        rcases List.mem_cons.mp he' with rfl | he'
        · exact hmono
        · exact hall e' he'
      · intro heq
        exact absurd (lt_of_lt_of_le h hmono) (by rw [heq]; exact lt_irrefl _)
      · intro e' he' hsc
        rcases List.mem_cons.mp he' with rfl | he'
        · have := hkeep hsc.symm
          rw [this]
        · exact hties e' he' hsc
    · obtain ⟨b', hfold, hatt, hmono, hall, hkeep, hties⟩ :=
        ih b (fun e' he' => hb e' (List.mem_cons_of_mem e he')) hpt
      have hle : e.overall ≤ b.score := not_lt.mp h
      refine ⟨b', by simpa [bestStep, if_neg h] using hfold, ?_, hmono, ?_,
        hkeep, ?_⟩
      · rcases hatt with hatt | ⟨e', he', h1, h2⟩
        · exact Or.inl hatt
        · exact Or.inr ⟨e', List.mem_cons_of_mem e he', h1, h2⟩
      · intro e' he'
        rcases List.mem_cons.mp he' with rfl | he'
        · exact le_trans hle hmono
        · exact hall e' he'
      · intro e' he' hsc
        rcases List.mem_cons.mp he' with rfl | he'
        · have hbb : b'.score = b.score :=
            le_antisymm (hsc ▸ hle) hmono
          rw [hkeep hbb]
          exact le_of_lt (hb e' (List.mem_cons_self e' t))
        · exact hties e' he' hsc

/-- Helper for C6: the worst-day accumulator mirrors the best-day one. -/
theorem worstStep_foldl (l : List DayScore) :
    ∀ w : DayMark, (∀ e ∈ l, w.date < e.date) →
      l.Pairwise (fun a c => a.date < c.date) →
      ∃ w', l.foldl worstStep (some w) = some w' ∧
        (w' = w ∨ ∃ e ∈ l, w'.date = e.date ∧ w'.score = e.overall) ∧
        w'.score ≤ w.score ∧
        (∀ e ∈ l, w'.score ≤ e.overall) ∧
        (w'.score = w.score → w' = w) ∧
        (∀ e ∈ l, e.overall = w'.score → w'.date ≤ e.date) := by
  induction l with
  | nil =>
    intro w _ _
    exact ⟨w, rfl, Or.inl rfl, le_refl _, by simp, fun _ => rfl, by simp⟩
  | cons e t ih =>
    intro w hw hpw
    rcases List.pairwise_cons.mp hpw with ⟨he, hpt⟩
    by_cases h : e.overall < w.score
    · obtain ⟨w', hfold, hatt, hmono, hall, hkeep, hties⟩ :=
        ih ⟨e.date, e.overall⟩ (fun e' he' => he e' he') hpt
      refine ⟨w', by simpa [worstStep, h] using hfold, ?_, ?_, ?_, ?_, ?_⟩
      · rcases hatt with hatt | ⟨e', he', h1, h2⟩
        · exact Or.inr ⟨e, List.mem_cons_self e t, by rw [hatt], by rw [hatt]⟩
        · exact Or.inr ⟨e', List.mem_cons_of_mem e he', h1, h2⟩
      · exact le_of_lt (lt_of_le_of_lt hmono h)
      · intro e' he'
        rcases List.mem_cons.mp he' with rfl | he'
        · exact hmono
        · exact hall e' he'
      · intro heq
        exact absurd (lt_of_le_of_lt hmono h) (by rw [heq]; exact lt_irrefl _)
      · intro e' he' hsc
        rcases List.mem_cons.mp he' with rfl | he'
        · have := hkeep hsc.symm
          rw [this]
        · exact hties e' he' hsc
    · obtain ⟨w', hfold, hatt, hmono, hall, hkeep, hties⟩ :=
        ih w (fun e' he' => hw e' (List.mem_cons_of_mem e he')) hpt
      have hle : w.score ≤ e.overall := not_lt.mp h
      refine ⟨w', by simpa [worstStep, if_neg h] using hfold, ?_, hmono, ?_,
        hkeep, ?_⟩
      · rcases hatt with hatt | ⟨e', he', h1, h2⟩
        · exact Or.inl hatt
        · exact Or.inr ⟨e', List.mem_cons_of_mem e he', h1, h2⟩
      · intro e' he'
        rcases List.mem_cons.mp he' with rfl | he'
        · exact le_trans hmono hle
        · exact hall e' he'
      · intro e' he' hsc
        rcases List.mem_cons.mp he' with rfl | he'
        · have hbb : w'.score = w.score :=
            le_antisymm hmono (hsc ▸ hle)
          rw [hkeep hbb]
          exact le_of_lt (hw e' (List.mem_cons_self e' t))
        · exact hties e' he' hsc

/-- C6: over a non-empty list of per-day records in ascending-date order,
the best-day scan returns the maximum daily `overall` value and the
worst-day scan the minimum, each attained at a record of the list, and on
ties the first (earliest-dated) record wins: every tied record's date is
at or after the reported one. -/
theorem best_worst_day_extremes (ds : List DayScore)
    (hne : ds ≠ [])
    (hsort : ds.Pairwise (fun a c => a.date < c.date)) :
    ∃ b w, bestDay ds = some b ∧ worstDay ds = some w ∧
      (∃ e ∈ ds, b.date = e.date ∧ b.score = e.overall) ∧
      (∀ e ∈ ds, e.overall ≤ b.score) ∧
      (∀ e ∈ ds, e.overall = b.score → b.date ≤ e.date) ∧
      (∃ e ∈ ds, w.date = e.date ∧ w.score = e.overall) ∧
      (∀ e ∈ ds, w.score ≤ e.overall) ∧
      (∀ e ∈ ds, e.overall = w.score → w.date ≤ e.date) := by
  cases ds with
  | nil => exact absurd rfl hne
  | cons e t =>
    rcases List.pairwise_cons.mp hsort with ⟨he, hpt⟩
    obtain ⟨b, hbfold, hbatt, hbmono, hball, hbkeep, hbties⟩ :=
      bestStep_foldl t ⟨e.date, e.overall⟩ (fun e' he' => he e' he') hpt
    obtain ⟨w, hwfold, hwatt, hwmono, hwall, hwkeep, hwties⟩ :=
      worstStep_foldl t ⟨e.date, e.overall⟩ (fun e' he' => he e' he') hpt
    refine ⟨b, w, hbfold, hwfold, ?_, ?_, ?_, ?_, ?_, ?_⟩
    · rcases hbatt with hbatt | ⟨e', he', h1, h2⟩
      · exact ⟨e, List.mem_cons_self e t, by rw [hbatt], by rw [hbatt]⟩
      · exact ⟨e', List.mem_cons_of_mem e he', h1, h2⟩
    · intro e' he'
      rcases List.mem_cons.mp he' with rfl | he'
      · exact hbmono
      · exact hball e' he'
    · intro e' he' hsc
      rcases List.mem_cons.mp he' with rfl | he'
      · rw [hbkeep hsc.symm]
      · exact hbties e' he' hsc
    · rcases hwatt with hwatt | ⟨e', he', h1, h2⟩
      · exact ⟨e, List.mem_cons_self e t, by rw [hwatt], by rw [hwatt]⟩
      · exact ⟨e', List.mem_cons_of_mem e he', h1, h2⟩
    · intro e' he'
      rcases List.mem_cons.mp he' with rfl | he'
      · exact hwmono
      · exact hwall e' he'
    · intro e' he' hsc
      rcases List.mem_cons.mp he' with rfl | he'
      · rw [hwkeep hsc.symm]
      · exact hwties e' he' hsc

/-- Witness for C6 at the two-day tie fixture (both days score 90): its
hypotheses hold concretely and the extremes theorem applies. -/
theorem best_worst_day_extremes_witness :
    tieDays ≠ [] ∧
    tieDays.Pairwise (fun a c => a.date < c.date) ∧
    (∃ b w, bestDay tieDays = some b ∧ worstDay tieDays = some w ∧
      (∃ e ∈ tieDays, b.date = e.date ∧ b.score = e.overall) ∧
      (∀ e ∈ tieDays, e.overall ≤ b.score) ∧
      (∀ e ∈ tieDays, e.overall = b.score → b.date ≤ e.date) ∧
      (∃ e ∈ tieDays, w.date = e.date ∧ w.score = e.overall) ∧
      (∀ e ∈ tieDays, w.score ≤ e.overall) ∧
      (∀ e ∈ tieDays, e.overall = w.score → w.date ≤ e.date)) :=
  ⟨by simp [tieDays],
   by simp [tieDays, List.pairwise_cons]; decide,
   best_worst_day_extremes tieDays (by simp [tieDays])
     (by simp [tieDays, List.pairwise_cons]; decide)⟩

/-- C8 counterexample: the claimed recovery does not happen for `tier`,
and the limit is not clamped.  With one stored tier-1 row, `tier=abc`
(non-numeric) yields an empty page with `total = 0`, while the documented
"tier unfiltered" default returns the row with `total = 1`; and a
supplied `limit=-5` is parsed through as `-5` — not a positive integer —
causing the store to return every remaining row. -/
theorem malformed_params_counterexample :
    (runQuery (parseLogsQuery ⟨none, none, none, some "abc", none, none⟩)
      [rowJan1]).2 = 0 ∧
    (runQuery (parseLogsQuery ⟨none, none, none, some "abc", none, none⟩)
      [rowJan1]).1 = [] ∧
    (runQuery (parseLogsQuery ⟨none, none, none, none, none, none⟩)
      [rowJan1]).2 = 1 ∧
    (parseLogsQuery ⟨some "-5", none, none, none, none, none⟩).limit = -5 ∧
    (runQuery (parseLogsQuery ⟨some "-5", none, none, none, none, none⟩)
      [rowJan1, rowJan2]).1 = [rowJan2, rowJan1] := by
  refine ⟨?_, ?_, ?_, ?_, ?_⟩ <;> rfl

/-- C8 (amended): non-numeric `limit` and `offset` fall back to the
defaults 50 and 0; a supplied non-numeric `tier` does not fall back to
"unfiltered" but produces the never-true `NULL` comparison, so the query
succeeds with an empty page and `total = 0`; and the limit is passed
through unclamped — a negative parsed limit makes the store return all
matching rows from the offset on. -/
theorem malformed_params_amended (ls os ts : String)
    (hl : jsParseInt ls = none) (ho : jsParseInt os = none)
    (ht : jsParseInt ts = none) (hts : ts ≠ "") :
    (parseLogsQuery ⟨some ls, some os, none, none, none, none⟩).limit = 50 ∧
    (parseLogsQuery ⟨some ls, some os, none, none, none, none⟩).offset = 0 ∧
    (∀ table, runQuery
      (parseLogsQuery ⟨none, none, none, some ts, none, none⟩) table =
        ([], 0)) ∧
    (∀ n : Nat, ∀ table : List ActionRow,
      (runQuery ⟨-(n : Int) - 1, 0, none, none, none, none⟩ table).1 =
        sortRows table) := by
  refine ⟨?_, ?_, ?_, ?_⟩
  · simp [parseLogsQuery, hl, orDefault]
  · simp [parseLogsQuery, ho, orDefault]
  · intro table
    have hmatch : ∀ r, rowMatches
        (parseLogsQuery ⟨none, none, none, some ts, none, none⟩) r = false := by
      intro r
      simp [parseLogsQuery, rowMatches, conditions, condVerdict, condTier,
        condSearch, condSince, hts, ht]
    have hfilter : table.filter (rowMatches
        (parseLogsQuery ⟨none, none, none, some ts, none, none⟩)) = [] :=
      List.filter_eq_nil_iff.mpr (fun r _ => by simp [hmatch r])
    simp [runQuery, hfilter, sortRows]
  · intro n table
    have hneg : -(n : Int) - 1 < 0 := by omega
    have hall : table.filter (rowMatches
        ⟨-(n : Int) - 1, 0, none, none, none, none⟩) = table :=
      List.filter_eq_self.mpr (fun r _ => rfl)
    simp [runQuery, hneg, hall]

/-- Witness for C8 (amended) at `limit=abc`, `offset=xyz`, `tier=zz`. -/
theorem malformed_params_amended_witness :
    jsParseInt "abc" = none ∧ jsParseInt "xyz" = none ∧
    jsParseInt "zz" = none ∧ "zz" ≠ "" ∧
    ((parseLogsQuery ⟨some "abc", some "xyz", none, none, none, none⟩).limit
        = 50 ∧
     (parseLogsQuery ⟨some "abc", some "xyz", none, none, none,
        none⟩).offset = 0 ∧
     (∀ table, runQuery
       (parseLogsQuery ⟨none, none, none, some "zz", none, none⟩) table =
         ([], 0)) ∧
     (∀ n : Nat, ∀ table : List ActionRow,
       (runQuery ⟨-(n : Int) - 1, 0, none, none, none, none⟩ table).1 =
         sortRows table)) :=
  ⟨rfl, rfl, rfl, by decide,
   malformed_params_amended "abc" "xyz" "zz" rfl rfl rfl (by decide)⟩

/-- `likeStar` succeeds iff its continuation succeeds on some suffix. -/
theorem likeStar_iff (m : List Char → Bool) (ts : List Char) :
    likeStar m ts = true ↔ ∃ ts', ts' <:+ ts ∧ m ts' = true := by
  induction ts with
  | nil =>
    constructor
    · intro h
      exact ⟨[], List.suffix_rfl, h⟩
    · rintro ⟨ts', hsuf, h⟩
      rw [List.suffix_nil.mp hsuf] at h
      exact h
  | cons t ts ih =>
    rw [likeStar]
    constructor
    · intro h
      rcases Bool.or_eq_true_iff.mp h with h | h
      · exact ⟨t :: ts, List.suffix_rfl, h⟩
      · obtain ⟨ts', hsuf, hm⟩ := ih.mp h
        exact ⟨ts', hsuf.trans (List.suffix_cons t ts), hm⟩
    · rintro ⟨ts', hsuf, hm⟩
      rcases List.suffix_cons_iff.mp hsuf with rfl | hsuf
      · exact Bool.or_eq_true_iff.mpr (Or.inl hm)
      · exact Bool.or_eq_true_iff.mpr (Or.inr (ih.mpr ⟨ts', hsuf, hm⟩))

/-- The `%`-head equation of `likeMatch`. -/
theorem likeMatch_pct_eq (ps ts : List Char) :
    likeMatch ('%' :: ps) ts = likeStar (likeMatch ps) ts := by
  cases ts <;> (rw [likeMatch.eq_def]; rfl)

/-- A bare `%` pattern matches any text. -/
theorem likeMatch_pct (ts : List Char) : likeMatch ['%'] ts = true := by
  rw [likeMatch_pct_eq, likeStar_iff]
  exact ⟨[], List.nil_suffix, by rw [likeMatch.eq_def]⟩

/-- A non-wildcard pattern head cannot match the empty text. -/
theorem likeMatch_cons_nil (c : Char) (ps : List Char)
    (h1 : c ≠ '%') (h2 : c ≠ '_') : likeMatch (c :: ps) [] = false := by
  rw [likeMatch.eq_def]
  split <;> simp_all

/-- A non-wildcard pattern head matches one text character up to ASCII
case and continues. -/
theorem likeMatch_cons_cons (c : Char) (ps : List Char) (t : Char)
    (ts : List Char) (h1 : c ≠ '%') (h2 : c ≠ '_') :
    likeMatch (c :: ps) (t :: ts) = ((lc c = lc t) && likeMatch ps ts) := by
  rw [likeMatch.eq_def]
  split <;> simp_all

/-- A pattern starting with `%` matches a text iff the rest of the
pattern matches some suffix of the text. -/
theorem likeMatch_star_iff (ps : List Char) (ts : List Char) :
    likeMatch ('%' :: ps) ts = true ↔
      ∃ ts', ts' <:+ ts ∧ likeMatch ps ts' = true := by
  rw [likeMatch_pct_eq]
  exact likeStar_iff (likeMatch ps) ts

/-- A wildcard-free pattern followed by `%` matches a text iff the
pattern is a case-folded prefix of it. -/
theorem likeMatch_prefix_iff (s : List Char) (hs : noWild s) :
    ∀ ts, likeMatch (s ++ ['%']) ts = true ↔ (s.map lc) <+: (ts.map lc) := by
  induction s with
  | nil => intro ts; simpa using likeMatch_pct ts
  | cons c s ih =>
    have h1 : c ≠ '%' := (hs c (List.mem_cons_self c s)).1
    have h2 : c ≠ '_' := (hs c (List.mem_cons_self c s)).2
    have hs' : noWild s := fun x hx => hs x (List.mem_cons_of_mem c hx)
    intro ts
    cases ts with
    | nil =>
      rw [List.cons_append, likeMatch_cons_nil c (s ++ ['%']) h1 h2]
      simp
    | cons t ts' =>
      rw [List.cons_append, likeMatch_cons_cons c (s ++ ['%']) t ts' h1 h2]
      simp [ih hs' ts', List.cons_prefix_cons]

/-- A suffix of a mapped list is the image of a suffix. -/
theorem suffix_map_iff {α β : Type} (f : α → β) (l : List α) (u : List β) :
    u <:+ l.map f ↔ ∃ v, v <:+ l ∧ u = v.map f := by
  constructor
  · intro h
    have hlen := List.suffix_iff_eq_drop.mp h
    rw [List.length_map] at hlen
    refine ⟨l.drop (l.length - u.length), List.drop_suffix _ _, ?_⟩
    rw [List.map_drop, ← hlen]
  · rintro ⟨v, hv, rfl⟩
    exact hv.map f

/-- For a wildcard-free search string, the built LIKE condition holds iff
the search string is an ASCII-case-insensitive substring of the column. -/
theorem likeContains_iff_infix (s t : String) (hs : noWild s.data) :
    likeContains s t = true ↔ lcChars s <:+: lcChars t := by
  unfold likeContains lcChars
  rw [likeMatch_star_iff]
  constructor
  · rintro ⟨ts', hsuf, hm⟩
    rw [likeMatch_prefix_iff s.data hs ts'] at hm
    exact List.infix_iff_prefix_suffix.mpr ⟨ts'.map lc, hm, hsuf.map lc⟩
  · intro h
    obtain ⟨u, hpre, hsuf⟩ := List.infix_iff_prefix_suffix.mp h
    obtain ⟨v, hv, rfl⟩ := (suffix_map_iff lc t.data u).mp hsuf
    exact ⟨v, hv, (likeMatch_prefix_iff s.data hs v).mpr hpre⟩

/-- C9 counterexample: the search filter is not a substring match for
every search string.  A search of `%` matches a row none of whose fields
contain a literal `%`, and a search of `a%b` matches a row whose
`action_type` is `axb`, which does not contain the text `a%b`. -/
theorem search_wildcard_counterexample :
    searchOk (some "%") rowPlain = true ∧
    ¬ (lcChars "%" <:+: lcChars rowPlain.action_type ∨
       lcChars "%" <:+: lcChars rowPlain.target ∨
       lcChars "%" <:+: lcChars rowPlain.description) ∧
    searchOk (some "a%b") rowAxb = true ∧
    ¬ lcChars "a%b" <:+: lcChars rowAxb.action_type := by
  refine ⟨rfl, ?_, rfl, ?_⟩ <;> decide

/-- C9 (amended): for every search string containing no LIKE wildcard
(`%`, `_`), the Query Engine's search constraint holds for a row iff the
string is an ASCII-case-insensitive substring of at least one of
`action_type`, `target` or `description`; search strings containing
wildcards are instead interpreted by LIKE. -/
theorem search_matches_ci_substring (s : String) (hs : noWild s.data)
    (r : ActionRow) :
    searchOk (some s) r = true ↔
      (lcChars s <:+: lcChars r.action_type ∨
       lcChars s <:+: lcChars r.target ∨
       lcChars s <:+: lcChars r.description) := by
  simp only [searchOk]
  by_cases h : s = ""
  · subst h
    simp [lcChars, List.nil_infix]
  · rw [if_neg h]
    simp only [Bool.or_eq_true, likeContains_iff_infix _ _ hs, or_assoc]

/-- Witness for C9 (amended) at the wildcard-free search `Q` against the
fixture row whose columns are all `q`. -/
theorem search_matches_ci_substring_witness :
    noWild ("Q" : String).data ∧
    (searchOk (some "Q") rowPlain = true ↔
      (lcChars "Q" <:+: lcChars rowPlain.action_type ∨
       lcChars "Q" <:+: lcChars rowPlain.target ∨
       lcChars "Q" <:+: lcChars rowPlain.description)) :=
  ⟨by decide, search_matches_ci_substring "Q" (by decide) rowPlain⟩

end Carapace
